import Mathlib

/-!
Verification of the report driver in `yoruba_inu.cpp` (the `inu` / `contents`
subcommand of the yoruba BAM inspection tool).

The program is a single sequential pass: parse command-line options, open the
BAM input, check header validity, print the report sections (raw header,
header line, references, read groups, programs, comments, reads) and a final
tally, then close.  We embed the driver `yoruba::main_inu` shallowly: the
external BamTools library is represented by the data it hands the driver
(header fields, reference table, record stream), standard output is a list of
structured `Line` events carrying exactly the data the source interpolates
into each printed line, and the int32/int64 option variables are `Int`s with
the source's casts made explicit.
-/

namespace Yoruba

/-- One record of the header's `@PG` program dictionary, as consumed by the
driver (fields `ID`, `Name`, `CommandLine`, `PreviousProgramID`, `Version`
of BamTools `SamProgram`). -/
structure SamProgram where
  ID : String
  Name : String
  CommandLine : String
  PreviousProgramID : String
  Version : String
  deriving DecidableEq

/-- The header data `main_inu` reads through the BamTools `SamHeader`
interface: the validity check and its error text, the raw text
(`ToString()`, modelled as a character list), the optional header-line
fields, presence of the optional sections, and the program and comment
lists. -/
structure SamHeader where
  isValid : Bool
  errorString : String
  text : List Char
  Version : Option String
  SortOrder : Option String
  GroupOrder : Option String
  hasSequences : Bool
  hasReadGroups : Bool
  Programs : List SamProgram
  Comments : List String
  deriving DecidableEq

/-- One entry of the reference table (`RefVector` element): name and length. -/
structure RefData where
  RefName : String
  RefLength : Int
  deriving DecidableEq

/-- What opening the input yields: whether `BamReader::Open` succeeded, the
header, the reference table (`GetReferenceData`, whose size is
`GetReferenceCount`), and the alignment record stream.  `records` lists the
records `GetNextAlignmentCore` delivers (abstract ids); after they are
exhausted the call returns `false`, either at end-of-file or on an I/O
failure — `endsWithError` marks which, and is invisible to the caller. -/
structure BamInput where
  openOk : Bool
  header : SamHeader
  refs : List RefData
  records : List Nat
  endsWithError : Bool
  deriving DecidableEq

/-- The option variables of `yoruba_inu.cpp` (statics `opt_*`).  `opt_reads`
is the debug-build record cap, `-1` (disabled) unless a debug flag sets it. -/
structure Opts where
  opt_reads_to_report : Int
  opt_quit : Bool
  opt_quiet : Bool
  opt_raw : Bool
  opt_refs_to_report : Int
  opt_raw_to_report : Int
  opt_reads : Int
  deriving DecidableEq

/-- The initial values of the option variables. -/
def defaultOpts : Opts :=
  { opt_reads_to_report := 10
    opt_quit := false
    opt_quiet := false
    opt_raw := false
    opt_refs_to_report := 10
    opt_raw_to_report := 1000
    opt_reads := -1 }

/-- One line of report output on standard output, carrying the data the
source interpolates into it. -/
inductive Line where
  | headerErrors (msg : String)
  | rawTruncated (limit : Int) (chars : List Char)
  | rawComplete (chars : List Char)
  | headerline (vn so go : Option String)
  | noHeaderline
  | refNotice (limit : Int)
  | refEntry (idx : Nat) (nm : String) (ln : Int)
  | noRefs
  | readGroupDict
  | noReadGroups
  | program (id nm cl pp vn : String)
  | noPrograms
  | commentCO (text : String)
  | noComments
  | readBanner (limit : Int)
  | readDetail (r : Nat)
  | readTally (n : Nat)
  deriving DecidableEq

/-- The bracketed section tag each output line is printed with (`none` for
the lines printed without a tag).  Note the source prints comment `@CO`
lines with the `[program]` tag (`yoruba_inu.cpp` line 269). -/
def Line.tag : Line → Option String
  | .headerErrors _ => none
  | .rawTruncated _ _ => none
  | .rawComplete _ => none
  | .headerline _ _ _ => some "[headerline]"
  | .noHeaderline => some "[headerline]"
  | .refNotice _ => some "[ref]"
  | .refEntry _ _ _ => some "[ref]"
  | .noRefs => some "[ref]"
  | .readGroupDict => some "[readgroup]"
  | .noReadGroups => some "[readgroup]"
  | .program _ _ _ _ _ => some "[program]"
  | .noPrograms => some "[program]"
  | .commentCO _ => some "[program]"
  | .noComments => some "[comment]"
  | .readBanner _ => some "[read]"
  | .readDetail _ => some "[read]"
  | .readTally _ => some "[read]"

/-- Header validity check (`yoruba_inu.cpp` lines 189-192): if
`header.IsValid(true)` fails, the validator's error text is printed. -/
def validityLines (h : SamHeader) : List Line :=
  if h.isValid then [] else [Line.headerErrors h.errorString]

/-- Raw header section (lines 194-205).  The length comparison casts
`opt_raw_to_report` (an `int32_t`) to `uint32_t`; the `substr` count
argument converts it to `size_t` (64-bit). -/
def rawLines (o : Opts) (h : SamHeader) : List Line :=
  if o.opt_raw then
    if h.text.length > (o.opt_raw_to_report.emod (2 ^ 32)).toNat then
      [Line.rawTruncated o.opt_raw_to_report
        (h.text.take (o.opt_raw_to_report.emod (2 ^ 64)).toNat)]
    else
      [Line.rawComplete h.text]
  else []

/-- Header-line section (lines 214-220). -/
def headerlineLines (h : SamHeader) : List Line :=
  if h.Version.isSome || h.SortOrder.isSome || h.GroupOrder.isSome then
    [Line.headerline h.Version h.SortOrder h.GroupOrder]
  else [Line.noHeaderline]

/-- The `@SQ` entries printed by the for loop of lines 233-238: one entry
per reference below both `ref_count` and `opt_refs_to_report`, carrying its
index, name and length. -/
def refEntriesFrom : List RefData → Nat → List Line
  | [], _ => []
  | r :: rest, i => Line.refEntry i r.RefName r.RefLength :: refEntriesFrom rest (i + 1)

/-- Reference section (lines 224-239): a truncation notice when
`ref_count > opt_refs_to_report`, then the first
`min ref_count opt_refs_to_report` entries; or the `no reference sequences
found` notice when the header has no `@SQ` dictionary. -/
def refLines (o : Opts) (b : BamInput) : List Line :=
  if b.header.hasSequences then
    (if (b.refs.length : Int) > o.opt_refs_to_report then
      [Line.refNotice o.opt_refs_to_report]
    else []) ++ refEntriesFrom (b.refs.take o.opt_refs_to_report.toNat) 0
  else [Line.noRefs]

/-- Read-group section (lines 243-246); the dictionary printing itself is
delegated to `printReadGroupDictionary`. -/
def readGroupLines (b : BamInput) : List Line :=
  if b.header.hasReadGroups then [Line.readGroupDict] else [Line.noReadGroups]

/-- Program section (lines 250-261): one `@PG` line per program record. -/
def programLines (h : SamHeader) : List Line :=
  if h.Programs.isEmpty then [Line.noPrograms]
  else h.Programs.map fun p =>
    Line.program p.ID p.Name p.CommandLine p.PreviousProgramID p.Version

/-- Comment section (lines 266-271): each comment is printed as an `@CO`
line (with the `[program]` tag — see `Line.tag`); when there are none, the
`no comment lines found` notice is printed with the `[comment]` tag. -/
def commentLines (h : SamHeader) : List Line :=
  if h.Comments.isEmpty then [Line.noComments]
  else h.Comments.map Line.commentCO

/-- Banner of the read section (lines 279-281): printed when
`opt_reads_to_report` is nonzero (C truthiness of the int64 variable). -/
def readBannerLines (o : Opts) : List Line :=
  if o.opt_reads_to_report ≠ 0 then [Line.readBanner o.opt_reads_to_report] else []

/-- The read loop of lines 283-298.  A record is consumed by
`GetNextAlignmentCore` before the `opt_reads` cap is tested (the `&&` of
the while condition evaluates left to right); the counter is incremented,
a detailed line is printed while `n_reads <= opt_reads_to_report`, and with
`--quit` the loop breaks as soon as `n_reads == opt_reads_to_report`.
Returns the detailed lines and the final `n_reads`. -/
def readLoop (o : Opts) : List Nat → Nat → List Line × Nat
  | [], n => ([], n)
  | r :: rest, n =>
    if o.opt_reads < 0 ∨ (n : Int) < o.opt_reads then
      let det : List Line :=
        if ((n + 1 : Nat) : Int) ≤ o.opt_reads_to_report then [Line.readDetail r] else []
      if o.opt_quit = true ∧ ((n + 1 : Nat) : Int) = o.opt_reads_to_report then
        (det, n + 1)
      else
        let p := readLoop o rest (n + 1)
        (det ++ p.1, p.2)
    else ([], n)

/-- Final `n_reads` of the read loop started from zero: the number printed
by the tally line of line 300. -/
def readsExamined (o : Opts) (records : List Nat) : Nat :=
  (readLoop o records 0).2

/-- Report sections printed after the `--quiet` early return (lines
212-300): header line, references, read groups, programs, comments, read
banner, detailed read lines, tally. -/
def mainLines (o : Opts) (b : BamInput) : List Line :=
  headerlineLines b.header ++ refLines o b ++ readGroupLines b ++
    programLines b.header ++ commentLines b.header ++ readBannerLines o ++
    (readLoop o b.records 0).1 ++ [Line.readTally (readsExamined o b.records)]

/-- Everything `main_inu` prints to standard output once the input is open
(lines 186-300): validity errors, the raw header when requested, and —
unless `--quiet` returned early — the main report sections. -/
def report (o : Opts) (b : BamInput) : List Line :=
  validityLines b.header ++ rawLines o b.header ++
    (if o.opt_quiet then [] else mainLines o b)

/-- A command-line token after the program name, as classified by the
CSimpleOpt option table of lines 119-135: a recognized option (with its
numeric argument already converted, as `strtoll`/`strtol` do), the help
aliases, an unrecognized or malformed option (`LastError() != SO_SUCCESS`),
or a positional file argument. -/
inductive Token where
  | reads_to_report (n : Int)
  | refs_to_report (n : Int)
  | quit
  | quiet
  | raw
  | raw_to_report (n : Int)
  | help
  | invalid (text : String)
  | file (path : String)
  deriving DecidableEq

/-- The option-processing loop of lines 139-166: options are handled in
order; an invalid option or a help flag sends the run to `usage()` (error);
positional files are left to CSimpleOpt's file list. -/
def parseTokens : List Token → Opts → Except Unit Opts
  | [], o => .ok o
  | t :: ts, o =>
    match t with
    | .reads_to_report n => parseTokens ts { o with opt_reads_to_report := n }
    | .refs_to_report n => parseTokens ts { o with opt_refs_to_report := n }
    | .quit => parseTokens ts { o with opt_quit := true }
    | .quiet => parseTokens ts { o with opt_quiet := true }
    | .raw => parseTokens ts { o with opt_raw := true }
    | .raw_to_report n => parseTokens ts { o with opt_raw_to_report := n }
    | .help => .error ()
    | .invalid _ => .error ()
    | .file _ => parseTokens ts o

/-- The positional (non-option) arguments, CSimpleOpt's `File` list. -/
def positionalFiles (argv : List Token) : List String :=
  argv.filterMap fun t => match t with | .file s => some s | _ => none

/-- The path handed to `BamReader::Open` (lines 168-175): the single
positional file when given, else `/dev/stdin`. -/
def inputFileOf (argv : List Token) : String :=
  match positionalFiles argv with
  | f :: _ => f
  | [] => "/dev/stdin"

/-- Observable outcome of a run of `main_inu`: exit code, standard-output
report lines, whether `usage()` was printed (to standard error), the
argument `BamReader::Open` was called with (when it was reached), and
whether `BamReader::Close` was called. -/
structure RunOut where
  exitCode : Int
  out : List Line
  usagePrinted : Bool
  opened : Option String
  closed : Bool
  deriving DecidableEq

/-- The driver `yoruba::main_inu` (lines 104-305).  `argv` is the argument
vector after the program name, so the `argc < 2` guard of line 108 is
`argv = []`; `env` gives, for each path, what opening it yields. -/
def main_inu (argv : List Token) (env : String → BamInput) : RunOut :=
  if argv = [] then
    { exitCode := 1, out := [], usagePrinted := true, opened := none, closed := false }
  else
    match parseTokens argv defaultOpts with
    | .error _ =>
      { exitCode := 1, out := [], usagePrinted := true, opened := none, closed := false }
    | .ok o =>
      if (positionalFiles argv).length > 1 then
        { exitCode := 1, out := [], usagePrinted := true, opened := none, closed := false }
      else
        if (env (inputFileOf argv)).openOk = false then
          { exitCode := 1, out := [], usagePrinted := false,
            opened := some (inputFileOf argv), closed := false }
        else
          { exitCode := 0, out := report o (env (inputFileOf argv)),
            usagePrinted := false, opened := some (inputFileOf argv), closed := true }

/-- Recognizer for detailed read lines. -/
def isDetailB : Line → Bool
  | .readDetail _ => true
  | _ => false

/-- Recognizer for `@SQ` reference entry lines. -/
def isRefEntryB : Line → Bool
  | .refEntry _ _ _ => true
  | _ => false

/-- Recognizer for the reference truncation notice. -/
def isRefNoticeB : Line → Bool
  | .refNotice _ => true
  | _ => false

/-- Recognizer for the `no reference sequences found` notice. -/
def isNoRefsB : Line → Bool
  | .noRefs => true
  | _ => false

/-- Recognizer for the headerline row. -/
def isHeaderRowB : Line → Bool
  | .headerline _ _ _ => true
  | _ => false

/-- Recognizer for the `no header line found` notice. -/
def isNoHeaderB : Line → Bool
  | .noHeaderline => true
  | _ => false

/-- Recognizer for `@CO` comment lines. -/
def isCommentCOB : Line → Bool
  | .commentCO _ => true
  | _ => false

/-- Recognizer for the `no comment lines found` notice. -/
def isNoCommentsB : Line → Bool
  | .noComments => true
  | _ => false

/-- Recognizer for raw-header output lines (both forms). -/
def isRawB : Line → Bool
  | .rawTruncated _ _ => true
  | .rawComplete _ => true
  | _ => false

/-- Recognizer for the final tally line. -/
def isTallyB : Line → Bool
  | .readTally _ => true
  | _ => false

/-- Characters of raw header text a line carries (zero except for the raw
header output forms). -/
def Line.rawChars : Line → Nat
  | .rawTruncated _ s => s.length
  | .rawComplete s => s.length
  | _ => 0

section FilterLemmas

variable (p : Line → Bool)

theorem filter_validityLines (h : SamHeader)
    (hp : ∀ s, p (.headerErrors s) = false) :
    (validityLines h).filter p = [] := by
  unfold validityLines; split <;> simp [hp]

theorem filter_rawLines (o : Opts) (h : SamHeader)
    (hp1 : ∀ a s, p (.rawTruncated a s) = false)
    (hp2 : ∀ s, p (.rawComplete s) = false) :
    (rawLines o h).filter p = [] := by
  unfold rawLines
  split
  · split <;> simp [hp1, hp2]
  · rfl

theorem filter_headerlineLines (h : SamHeader)
    (hp1 : ∀ a b c, p (.headerline a b c) = false)
    (hp2 : p .noHeaderline = false) :
    (headerlineLines h).filter p = [] := by
  unfold headerlineLines; split <;> simp [hp1, hp2]

theorem filter_refEntriesFrom
    (hp : ∀ i nm ln, p (.refEntry i nm ln) = false) :
    ∀ (rs : List RefData) (i : Nat), (refEntriesFrom rs i).filter p = [] := by
  intro rs
  induction rs with
  | nil => intro i; rfl
  | cons r rest ih => intro i; simp [refEntriesFrom, hp, ih]

theorem filter_refLines (o : Opts) (b : BamInput)
    (hp1 : ∀ a, p (.refNotice a) = false)
    (hp2 : ∀ i nm ln, p (.refEntry i nm ln) = false)
    (hp3 : p .noRefs = false) :
    (refLines o b).filter p = [] := by
  unfold refLines
  split
  · rw [List.filter_append, filter_refEntriesFrom p hp2]
    split <;> simp [hp1]
  · simp [hp3]

theorem filter_readGroupLines (b : BamInput)
    (hp1 : p .readGroupDict = false)
    (hp2 : p .noReadGroups = false) :
    (readGroupLines b).filter p = [] := by
  unfold readGroupLines; split <;> simp [hp1, hp2]

theorem filter_programLines (h : SamHeader)
    (hp1 : ∀ a b c d e, p (.program a b c d e) = false)
    (hp2 : p .noPrograms = false) :
    (programLines h).filter p = [] := by
  unfold programLines
  split
  · simp [hp2]
  · rw [List.filter_eq_nil_iff]
    intro a ha
    obtain ⟨q, _, rfl⟩ := List.mem_map.mp ha
    simp [hp1]

theorem filter_commentLines (h : SamHeader)
    (hp1 : ∀ s, p (.commentCO s) = false)
    (hp2 : p .noComments = false) :
    (commentLines h).filter p = [] := by
  unfold commentLines
  split
  · simp [hp2]
  · rw [List.filter_eq_nil_iff]
    intro a ha
    obtain ⟨q, _, rfl⟩ := List.mem_map.mp ha
    simp [hp1]

theorem filter_readBannerLines (o : Opts)
    (hp : ∀ a, p (.readBanner a) = false) :
    (readBannerLines o).filter p = [] := by
  unfold readBannerLines; split <;> simp [hp]

theorem readLoop_mem_detail (o : Opts) :
    ∀ (rs : List Nat) (n : Nat) (l : Line),
      l ∈ (readLoop o rs n).1 → ∃ r, l = Line.readDetail r := by
  intro rs
  induction rs with
  | nil => intro n l h; simp [readLoop] at h
  | cons r rest ih =>
    intro n l h
    simp only [readLoop] at h
    by_cases hc : o.opt_reads < 0 ∨ (n : Int) < o.opt_reads
    · rw [if_pos hc] at h
      by_cases hq : o.opt_quit = true ∧ ((n + 1 : Nat) : Int) = o.opt_reads_to_report
      · rw [if_pos hq] at h
        by_cases hd : ((n + 1 : Nat) : Int) ≤ o.opt_reads_to_report
        · rw [if_pos hd] at h
          simp at h
          exact ⟨r, h⟩
        · rw [if_neg hd] at h
          simp at h
      · rw [if_neg hq] at h
        rcases List.mem_append.mp h with h1 | h2
        · by_cases hd : ((n + 1 : Nat) : Int) ≤ o.opt_reads_to_report
          · rw [if_pos hd] at h1
            simp at h1
            exact ⟨r, h1⟩
          · rw [if_neg hd] at h1
            simp at h1
        · exact ih (n + 1) l h2
    · rw [if_neg hc] at h
      simp at h

theorem filter_readLoopLines (o : Opts)
    (hp : ∀ r, p (.readDetail r) = false) (rs : List Nat) (n : Nat) :
    ((readLoop o rs n).1).filter p = [] := by
  rw [List.filter_eq_nil_iff]
  intro a ha
  obtain ⟨r, rfl⟩ := readLoop_mem_detail o rs n a ha
  simp [hp]

theorem filter_detail_readLoopLines (o : Opts) (rs : List Nat) (n : Nat) :
    ((readLoop o rs n).1).filter isDetailB = (readLoop o rs n).1 := by
  rw [List.filter_eq_self]
  intro a ha
  obtain ⟨r, rfl⟩ := readLoop_mem_detail o rs n a ha
  rfl

end FilterLemmas

section ReportFilters

theorem filter_refEntriesFrom_self :
    ∀ (rs : List RefData) (i : Nat),
      (refEntriesFrom rs i).filter isRefEntryB = refEntriesFrom rs i := by
  intro rs
  induction rs with
  | nil => intro i; rfl
  | cons r rest ih => intro i; simp [refEntriesFrom, isRefEntryB, ih]

theorem filter_report_detail (o : Opts) (b : BamInput) (hq : o.opt_quiet = false) :
    (report o b).filter isDetailB = (readLoop o b.records 0).1 := by
  simp only [report, mainLines, hq, Bool.false_eq_true, if_false, List.filter_append]
  rw [filter_validityLines _ _ (fun s => rfl),
    filter_rawLines _ _ _ (fun a s => rfl) (fun s => rfl),
    filter_headerlineLines _ _ (fun a b c => rfl) rfl,
    filter_refLines _ _ _ (fun a => rfl) (fun i nm ln => rfl) rfl,
    filter_readGroupLines _ _ rfl rfl,
    filter_programLines _ _ (fun a b c d e => rfl) rfl,
    filter_commentLines _ _ (fun s => rfl) rfl,
    filter_readBannerLines _ _ (fun a => rfl),
    filter_detail_readLoopLines]
  simp [isDetailB]

theorem filter_report_refEntry (o : Opts) (b : BamInput) (hq : o.opt_quiet = false) :
    (report o b).filter isRefEntryB =
      (if b.header.hasSequences then
        refEntriesFrom (b.refs.take o.opt_refs_to_report.toNat) 0
      else []) := by
  simp only [report, mainLines, hq, Bool.false_eq_true, if_false, List.filter_append]
  rw [filter_validityLines _ _ (fun s => rfl),
    filter_rawLines _ _ _ (fun a s => rfl) (fun s => rfl),
    filter_headerlineLines _ _ (fun a b c => rfl) rfl,
    filter_readGroupLines _ _ rfl rfl,
    filter_programLines _ _ (fun a b c d e => rfl) rfl,
    filter_commentLines _ _ (fun s => rfl) rfl,
    filter_readBannerLines _ _ (fun a => rfl),
    filter_readLoopLines _ _ (fun r => rfl)]
  have hrefs : (refLines o b).filter isRefEntryB =
      (if b.header.hasSequences then
        refEntriesFrom (b.refs.take o.opt_refs_to_report.toNat) 0
      else []) := by
    unfold refLines
    split
    · rw [List.filter_append, filter_refEntriesFrom_self]
      split <;> simp [isRefEntryB]
    · simp [isRefEntryB]
  rw [hrefs]
  simp [isRefEntryB]

theorem filter_report_refNotice (o : Opts) (b : BamInput) (hq : o.opt_quiet = false) :
    (report o b).filter isRefNoticeB =
      (if b.header.hasSequences then
        (if (b.refs.length : Int) > o.opt_refs_to_report then
          [Line.refNotice o.opt_refs_to_report]
        else [])
      else []) := by
  simp only [report, mainLines, hq, Bool.false_eq_true, if_false, List.filter_append]
  rw [filter_validityLines _ _ (fun s => rfl),
    filter_rawLines _ _ _ (fun a s => rfl) (fun s => rfl),
    filter_headerlineLines _ _ (fun a b c => rfl) rfl,
    filter_readGroupLines _ _ rfl rfl,
    filter_programLines _ _ (fun a b c d e => rfl) rfl,
    filter_commentLines _ _ (fun s => rfl) rfl,
    filter_readBannerLines _ _ (fun a => rfl),
    filter_readLoopLines _ _ (fun r => rfl)]
  have hrefs : (refLines o b).filter isRefNoticeB =
      (if b.header.hasSequences then
        (if (b.refs.length : Int) > o.opt_refs_to_report then
          [Line.refNotice o.opt_refs_to_report]
        else [])
      else []) := by
    unfold refLines
    split
    · rw [List.filter_append, filter_refEntriesFrom _ (fun i nm ln => rfl)]
      split <;> simp [isRefNoticeB]
    · simp [isRefNoticeB]
  rw [hrefs]
  simp [isRefNoticeB]

theorem filter_report_noRefs (o : Opts) (b : BamInput) (hq : o.opt_quiet = false) :
    (report o b).filter isNoRefsB =
      (if b.header.hasSequences then [] else [Line.noRefs]) := by
  simp only [report, mainLines, hq, Bool.false_eq_true, if_false, List.filter_append]
  rw [filter_validityLines _ _ (fun s => rfl),
    filter_rawLines _ _ _ (fun a s => rfl) (fun s => rfl),
    filter_headerlineLines _ _ (fun a b c => rfl) rfl,
    filter_readGroupLines _ _ rfl rfl,
    filter_programLines _ _ (fun a b c d e => rfl) rfl,
    filter_commentLines _ _ (fun s => rfl) rfl,
    filter_readBannerLines _ _ (fun a => rfl),
    filter_readLoopLines _ _ (fun r => rfl)]
  have hrefs : (refLines o b).filter isNoRefsB =
      (if b.header.hasSequences then [] else [Line.noRefs]) := by
    unfold refLines
    split
    · rw [List.filter_append, filter_refEntriesFrom _ (fun i nm ln => rfl)]
      split <;> simp [isNoRefsB]
    · simp [isNoRefsB]
  rw [hrefs]
  simp [isNoRefsB]

theorem filter_report_headerRow (o : Opts) (b : BamInput) (hq : o.opt_quiet = false) :
    (report o b).filter isHeaderRowB =
      (if b.header.Version.isSome || b.header.SortOrder.isSome ||
          b.header.GroupOrder.isSome then
        [Line.headerline b.header.Version b.header.SortOrder b.header.GroupOrder]
      else []) := by
  simp only [report, mainLines, hq, Bool.false_eq_true, if_false, List.filter_append]
  rw [filter_validityLines _ _ (fun s => rfl),
    filter_rawLines _ _ _ (fun a s => rfl) (fun s => rfl),
    filter_refLines _ _ _ (fun a => rfl) (fun i nm ln => rfl) rfl,
    filter_readGroupLines _ _ rfl rfl,
    filter_programLines _ _ (fun a b c d e => rfl) rfl,
    filter_commentLines _ _ (fun s => rfl) rfl,
    filter_readBannerLines _ _ (fun a => rfl),
    filter_readLoopLines _ _ (fun r => rfl)]
  have hh : (headerlineLines b.header).filter isHeaderRowB =
      (if b.header.Version.isSome || b.header.SortOrder.isSome ||
          b.header.GroupOrder.isSome then
        [Line.headerline b.header.Version b.header.SortOrder b.header.GroupOrder]
      else []) := by
    unfold headerlineLines
    split <;> simp [isHeaderRowB]
  rw [hh]
  simp [isHeaderRowB]

theorem filter_report_noHeader (o : Opts) (b : BamInput) (hq : o.opt_quiet = false) :
    (report o b).filter isNoHeaderB =
      (if b.header.Version.isSome || b.header.SortOrder.isSome ||
          b.header.GroupOrder.isSome then
        []
      else [Line.noHeaderline]) := by
  simp only [report, mainLines, hq, Bool.false_eq_true, if_false, List.filter_append]
  rw [filter_validityLines _ _ (fun s => rfl),
    filter_rawLines _ _ _ (fun a s => rfl) (fun s => rfl),
    filter_refLines _ _ _ (fun a => rfl) (fun i nm ln => rfl) rfl,
    filter_readGroupLines _ _ rfl rfl,
    filter_programLines _ _ (fun a b c d e => rfl) rfl,
    filter_commentLines _ _ (fun s => rfl) rfl,
    filter_readBannerLines _ _ (fun a => rfl),
    filter_readLoopLines _ _ (fun r => rfl)]
  have hh : (headerlineLines b.header).filter isNoHeaderB =
      (if b.header.Version.isSome || b.header.SortOrder.isSome ||
          b.header.GroupOrder.isSome then
        []
      else [Line.noHeaderline]) := by
    unfold headerlineLines
    split <;> simp [isNoHeaderB]
  rw [hh]
  simp [isNoHeaderB]

theorem filter_report_commentCO (o : Opts) (b : BamInput) (hq : o.opt_quiet = false) :
    (report o b).filter isCommentCOB =
      (if b.header.Comments.isEmpty then []
      else b.header.Comments.map Line.commentCO) := by
  simp only [report, mainLines, hq, Bool.false_eq_true, if_false, List.filter_append]
  rw [filter_validityLines _ _ (fun s => rfl),
    filter_rawLines _ _ _ (fun a s => rfl) (fun s => rfl),
    filter_headerlineLines _ _ (fun a b c => rfl) rfl,
    filter_refLines _ _ _ (fun a => rfl) (fun i nm ln => rfl) rfl,
    filter_readGroupLines _ _ rfl rfl,
    filter_programLines _ _ (fun a b c d e => rfl) rfl,
    filter_readBannerLines _ _ (fun a => rfl),
    filter_readLoopLines _ _ (fun r => rfl)]
  have hc : (commentLines b.header).filter isCommentCOB =
      (if b.header.Comments.isEmpty then []
      else b.header.Comments.map Line.commentCO) := by
    unfold commentLines
    split
    · simp [isCommentCOB]
    · rw [List.filter_eq_self.mpr]
      intro a ha
      obtain ⟨q, _, rfl⟩ := List.mem_map.mp ha
      rfl
  rw [hc]
  simp [isCommentCOB]

theorem filter_report_noComments (o : Opts) (b : BamInput) (hq : o.opt_quiet = false) :
    (report o b).filter isNoCommentsB =
      (if b.header.Comments.isEmpty then [Line.noComments] else []) := by
  simp only [report, mainLines, hq, Bool.false_eq_true, if_false, List.filter_append]
  rw [filter_validityLines _ _ (fun s => rfl),
    filter_rawLines _ _ _ (fun a s => rfl) (fun s => rfl),
    filter_headerlineLines _ _ (fun a b c => rfl) rfl,
    filter_refLines _ _ _ (fun a => rfl) (fun i nm ln => rfl) rfl,
    filter_readGroupLines _ _ rfl rfl,
    filter_programLines _ _ (fun a b c d e => rfl) rfl,
    filter_readBannerLines _ _ (fun a => rfl),
    filter_readLoopLines _ _ (fun r => rfl)]
  have hc : (commentLines b.header).filter isNoCommentsB =
      (if b.header.Comments.isEmpty then [Line.noComments] else []) := by
    unfold commentLines
    split
    · simp [isNoCommentsB]
    · rw [List.filter_eq_nil_iff.mpr]
      intro a ha
      obtain ⟨q, _, rfl⟩ := List.mem_map.mp ha
      simp [isNoCommentsB]
  rw [hc]
  simp [isNoCommentsB]

theorem filter_raw_mainLines (o : Opts) (b : BamInput) :
    (mainLines o b).filter isRawB = [] := by
  simp only [mainLines, List.filter_append]
  rw [filter_headerlineLines _ _ (fun a b c => rfl) rfl,
    filter_refLines _ _ _ (fun a => rfl) (fun i nm ln => rfl) rfl,
    filter_readGroupLines _ _ rfl rfl,
    filter_programLines _ _ (fun a b c d e => rfl) rfl,
    filter_commentLines _ _ (fun s => rfl) rfl,
    filter_readBannerLines _ _ (fun a => rfl),
    filter_readLoopLines _ _ (fun r => rfl)]
  rfl

theorem filter_report_raw (o : Opts) (b : BamInput) :
    (report o b).filter isRawB = rawLines o b.header := by
  simp only [report, List.filter_append]
  rw [filter_validityLines _ _ (fun s => rfl)]
  have hr : (rawLines o b.header).filter isRawB = rawLines o b.header := by
    unfold rawLines
    split
    · split <;> rfl
    · rfl
  rw [hr]
  by_cases hq : o.opt_quiet = true
  · simp [hq]
  · simp only [Bool.not_eq_true] at hq
    simp [hq, filter_raw_mainLines]

theorem filter_report_tally (o : Opts) (b : BamInput) (hq : o.opt_quiet = false) :
    (report o b).filter isTallyB = [Line.readTally (readsExamined o b.records)] := by
  simp only [report, mainLines, hq, Bool.false_eq_true, if_false, List.filter_append]
  rw [filter_validityLines _ _ (fun s => rfl),
    filter_rawLines _ _ _ (fun a s => rfl) (fun s => rfl),
    filter_headerlineLines _ _ (fun a b c => rfl) rfl,
    filter_refLines _ _ _ (fun a => rfl) (fun i nm ln => rfl) rfl,
    filter_readGroupLines _ _ rfl rfl,
    filter_programLines _ _ (fun a b c d e => rfl) rfl,
    filter_commentLines _ _ (fun s => rfl) rfl,
    filter_readBannerLines _ _ (fun a => rfl),
    filter_readLoopLines _ _ (fun r => rfl)]
  simp [isTallyB]

end ReportFilters

section ReadLoopCounts

theorem readLoop_length (o : Opts) (hreads : o.opt_reads < 0) :
    ∀ (rs : List Nat) (n : Nat),
      ((readLoop o rs n).1).length =
        min rs.length ((o.opt_reads_to_report - n).toNat) := by
  intro rs
  induction rs with
  | nil => intro n; simp [readLoop]
  | cons r rest ih =>
    intro n
    simp only [readLoop]
    rw [if_pos (Or.inl hreads)]
    by_cases hquit : o.opt_quit = true ∧ ((n + 1 : Nat) : Int) = o.opt_reads_to_report
    · rw [if_pos hquit]
      rw [if_pos (le_of_eq hquit.2)]
      have h2 := hquit.2
      simp only [List.length_cons, List.length_nil]
      omega
    · rw [if_neg hquit]
      simp only [List.length_append, ih (n + 1), List.length_cons]
      by_cases hd : ((n + 1 : Nat) : Int) ≤ o.opt_reads_to_report
      · rw [if_pos hd]
        simp only [List.length_cons, List.length_nil]
        omega
      · rw [if_neg hd]
        simp only [List.length_nil]
        omega

theorem readLoop_tally_noquit (o : Opts) (hreads : o.opt_reads < 0)
    (hquit : o.opt_quit = false) :
    ∀ (rs : List Nat) (n : Nat), (readLoop o rs n).2 = n + rs.length := by
  intro rs
  induction rs with
  | nil => intro n; simp [readLoop]
  | cons r rest ih =>
    intro n
    simp only [readLoop]
    rw [if_pos (Or.inl hreads)]
    rw [if_neg (by simp [hquit])]
    simp only [ih (n + 1), List.length_cons]
    omega

theorem readLoop_tally_quit (o : Opts) (hreads : o.opt_reads < 0)
    (hquit : o.opt_quit = true) :
    ∀ (rs : List Nat) (n : Nat),
      (n : Int) < o.opt_reads_to_report →
      o.opt_reads_to_report ≤ (n : Int) + rs.length →
      ((readLoop o rs n).2 : Int) = o.opt_reads_to_report := by
  intro rs
  induction rs with
  | nil =>
    intro n h1 h2
    simp only [List.length_nil, Nat.cast_zero, add_zero] at h2
    omega
  | cons r rest ih =>
    intro n h1 h2
    simp only [readLoop]
    rw [if_pos (Or.inl hreads)]
    by_cases he : ((n + 1 : Nat) : Int) = o.opt_reads_to_report
    · rw [if_pos ⟨hquit, he⟩]
      exact he
    · rw [if_neg (fun hc => he hc.2)]
      simp only [List.length_cons] at h2
      exact ih (n + 1) (by push_cast at he ⊢; omega) (by push_cast at h2 ⊢; omega)

end ReadLoopCounts

section DriverLemmas

theorem parseTokens_error_of_invalid :
    ∀ (argv : List Token) (o : Opts) (s : String),
      Token.invalid s ∈ argv → parseTokens argv o = .error () := by
  intro argv
  induction argv with
  | nil => intro o s h; simp at h
  | cons t ts ih =>
    intro o s h
    rcases List.mem_cons.mp h with h1 | h2
    · cases t <;> simp_all [parseTokens]
    · cases t <;> simp only [parseTokens] <;> first | rfl | exact ih _ s h2

theorem main_inu_ok (argv : List Token) (env : String → BamInput) (o : Opts)
    (h0 : ¬ argv = []) (h1 : parseTokens argv defaultOpts = .ok o)
    (h2 : (positionalFiles argv).length ≤ 1)
    (h3 : (env (inputFileOf argv)).openOk = true) :
    main_inu argv env =
      { exitCode := 0, out := report o (env (inputFileOf argv)),
        usagePrinted := false, opened := some (inputFileOf argv), closed := true } := by
  unfold main_inu
  rw [if_neg h0]
  simp only [h1]
  rw [if_neg (by omega)]
  rw [if_neg (by simp [h3])]

theorem main_inu_openFail (argv : List Token) (env : String → BamInput) (o : Opts)
    (h0 : ¬ argv = []) (h1 : parseTokens argv defaultOpts = .ok o)
    (h2 : (positionalFiles argv).length ≤ 1)
    (h3 : (env (inputFileOf argv)).openOk = false) :
    main_inu argv env =
      { exitCode := 1, out := [], usagePrinted := false,
        opened := some (inputFileOf argv), closed := false } := by
  unfold main_inu
  rw [if_neg h0]
  simp only [h1]
  rw [if_neg (by omega)]
  rw [if_pos h3]

theorem main_inu_opened (argv : List Token) (env : String → BamInput) (o : Opts)
    (h0 : ¬ argv = []) (h1 : parseTokens argv defaultOpts = .ok o)
    (h2 : (positionalFiles argv).length ≤ 1) :
    (main_inu argv env).opened = some (inputFileOf argv) := by
  by_cases h3 : (env (inputFileOf argv)).openOk = false
  · rw [main_inu_openFail argv env o h0 h1 h2 h3]
  · rw [main_inu_ok argv env o h0 h1 h2 (by simpa using h3)]

theorem mem_iff_mem_filter {p : Line → Bool} (l : List Line) (x : Line)
    (hx : p x = true) : x ∈ l ↔ x ∈ l.filter p := by
  rw [List.mem_filter]
  simp [hx]

theorem refEntriesFrom_length :
    ∀ (rs : List RefData) (i : Nat), (refEntriesFrom rs i).length = rs.length := by
  intro rs
  induction rs with
  | nil => intro i; rfl
  | cons r rest ih => intro i; simp [refEntriesFrom, ih]

theorem rawChars_sum_filter (l : List Line) :
    ((l.filter isRawB).map Line.rawChars).sum = (l.map Line.rawChars).sum := by
  induction l with
  | nil => rfl
  | cons x xs ih => cases x <;> simp [List.filter, isRawB, Line.rawChars, ih]

end DriverLemmas

section SampleInputs

/-- A small valid header used to instantiate the theorems. -/
def sampleHeader : SamHeader :=
  { isValid := true
    errorString := ""
    text := ['@', 'H', 'D', '\t', 'V', 'N', ':', '1', '.', '4', '\n']
    Version := some "1.4"
    SortOrder := none
    GroupOrder := none
    hasSequences := true
    hasReadGroups := false
    Programs := []
    Comments := ["a comment"] }

/-- A small BAM input: three references, five records, clean end of file. -/
def sampleBam : BamInput :=
  { openOk := true
    header := sampleHeader
    refs := [⟨"chr1", 100⟩, ⟨"chr2", 200⟩, ⟨"chr3", 300⟩]
    records := [0, 1, 2, 3, 4]
    endsWithError := false }

/-- The sample BAM input whose record stream ends in an I/O failure. -/
def sampleBamErr : BamInput :=
  { sampleBam with endsWithError := true }

/-- Options asking for three reads per report. -/
def sampleOptsReads : Opts :=
  { defaultOpts with opt_reads_to_report := 3 }

/-- Options asking for two references per report. -/
def sampleOptsRefs : Opts :=
  { defaultOpts with opt_refs_to_report := 2 }

/-- Options asking for the raw header, capped at four characters. -/
def sampleOptsRaw : Opts :=
  { defaultOpts with opt_raw := true, opt_raw_to_report := 4 }

end SampleInputs

/-- Claim C1: for every BAM input (with the debug record cap disabled, as in
any non-debug invocation, and `--quiet` unset so the read section is
reached), the report contains exactly `min (number of records)
reads-to-report` detailed read lines; the single tally line reports
`readsExamined`, which equals the total record count when `--quit` is
unset, and equals `reads-to-report` when `--quit` is set and the file holds
at least that many records. -/
theorem claim_c1 (o : Opts) (b : BamInput)
    (hreads : o.opt_reads < 0) (hq : o.opt_quiet = false) :
    ((report o b).filter isDetailB).length =
      min b.records.length o.opt_reads_to_report.toNat
    ∧ (report o b).filter isTallyB =
        [Line.readTally (readsExamined o b.records)]
    ∧ (o.opt_quit = false → readsExamined o b.records = b.records.length)
    ∧ (o.opt_quit = true → 1 ≤ o.opt_reads_to_report →
        o.opt_reads_to_report ≤ (b.records.length : Int) →
        (readsExamined o b.records : Int) = o.opt_reads_to_report) := by
  refine ⟨?_, filter_report_tally o b hq, ?_, ?_⟩
  · rw [filter_report_detail o b hq, readLoop_length o hreads]
    simp
  · intro hquit
    unfold readsExamined
    rw [readLoop_tally_noquit o hreads hquit]
    simp
  · intro hquit h1 h2
    unfold readsExamined
    exact readLoop_tally_quit o hreads hquit b.records 0
      (by push_cast; omega) (by push_cast; omega)

/-- Witness for C1 at a concrete input: five records, three reads to
report. -/
theorem claim_c1_witness :
    (sampleOptsReads.opt_reads < 0 ∧ sampleOptsReads.opt_quiet = false) ∧
    (((report sampleOptsReads sampleBam).filter isDetailB).length =
        min sampleBam.records.length sampleOptsReads.opt_reads_to_report.toNat
      ∧ (report sampleOptsReads sampleBam).filter isTallyB =
          [Line.readTally (readsExamined sampleOptsReads sampleBam.records)]
      ∧ (sampleOptsReads.opt_quit = false →
          readsExamined sampleOptsReads sampleBam.records = sampleBam.records.length)
      ∧ (sampleOptsReads.opt_quit = true → 1 ≤ sampleOptsReads.opt_reads_to_report →
          sampleOptsReads.opt_reads_to_report ≤ (sampleBam.records.length : Int) →
          (readsExamined sampleOptsReads sampleBam.records : Int) =
            sampleOptsReads.opt_reads_to_report)) :=
  ⟨⟨by decide, by decide⟩,
    claim_c1 sampleOptsReads sampleBam (by decide) (by decide)⟩

/-- Claim C2: with `--quiet` unset, a header with reference sequences gets
exactly `min (reference count) refs-to-report` `@SQ` entry lines — the
entries for the first references in order, each carrying its index, name
and length — and the truncation notice appears iff the reference count
exceeds `refs-to-report`; a header without sequences gets the `no reference
sequences found` notice and no entries. -/
theorem claim_c2 (o : Opts) (b : BamInput) (hq : o.opt_quiet = false) :
    (b.header.hasSequences = true →
      ((report o b).filter isRefEntryB).length =
          min b.refs.length o.opt_refs_to_report.toNat
      ∧ (report o b).filter isRefEntryB =
          refEntriesFrom (b.refs.take o.opt_refs_to_report.toNat) 0
      ∧ (Line.refNotice o.opt_refs_to_report ∈ report o b ↔
          (b.refs.length : Int) > o.opt_refs_to_report))
    ∧ (b.header.hasSequences = false →
      Line.noRefs ∈ report o b ∧ (report o b).filter isRefEntryB = []) := by
  constructor
  · intro hseq
    have hent : (report o b).filter isRefEntryB =
        refEntriesFrom (b.refs.take o.opt_refs_to_report.toNat) 0 := by
      rw [filter_report_refEntry o b hq, if_pos hseq]
    refine ⟨?_, hent, ?_⟩
    · rw [hent, refEntriesFrom_length, List.length_take]
      omega
    · rw [mem_iff_mem_filter (report o b) _ (by rfl : isRefNoticeB _ = true),
        filter_report_refNotice o b hq, if_pos hseq]
      by_cases hc : (b.refs.length : Int) > o.opt_refs_to_report
      · rw [if_pos hc]
        simp [hc]
      · rw [if_neg hc]
        simp [hc]
  · intro hseq
    constructor
    · rw [mem_iff_mem_filter (report o b) _ (by rfl : isNoRefsB _ = true),
        filter_report_noRefs o b hq, if_neg (by simp [hseq])]
      simp
    · rw [filter_report_refEntry o b hq, if_neg (by simp [hseq])]

/-- Witness for C2 at a concrete input: three references, two to report,
so two entries and the truncation notice. -/
theorem claim_c2_witness :
    (sampleOptsRefs.opt_quiet = false ∧ sampleBam.header.hasSequences = true) ∧
    (((report sampleOptsRefs sampleBam).filter isRefEntryB).length =
        min sampleBam.refs.length sampleOptsRefs.opt_refs_to_report.toNat
      ∧ (report sampleOptsRefs sampleBam).filter isRefEntryB =
          refEntriesFrom (sampleBam.refs.take sampleOptsRefs.opt_refs_to_report.toNat) 0
      ∧ (Line.refNotice sampleOptsRefs.opt_refs_to_report ∈ report sampleOptsRefs sampleBam ↔
          (sampleBam.refs.length : Int) > sampleOptsRefs.opt_refs_to_report)) :=
  ⟨⟨by decide, by decide⟩,
    (claim_c2 sampleOptsRefs sampleBam (by decide)).1 (by decide)⟩

/-- Claim C3: with `--raw` set and a `raw-to-report` bound that is a valid
nonnegative `int32` value (so the source's `uint32_t`/`size_t` casts are
the identity), the number of raw header characters printed equals
`min (header text length) raw-to-report`; the truncated form appears iff
the text is strictly longer than the bound, and at equal length the
complete-contents form is printed. -/
theorem claim_c3 (o : Opts) (b : BamInput) (hraw : o.opt_raw = true)
    (h0 : 0 ≤ o.opt_raw_to_report) (h31 : o.opt_raw_to_report < 2 ^ 31) :
    ((report o b).map Line.rawChars).sum =
        min b.header.text.length o.opt_raw_to_report.toNat
    ∧ ((∃ s, Line.rawTruncated o.opt_raw_to_report s ∈ report o b) ↔
        o.opt_raw_to_report.toNat < b.header.text.length)
    ∧ (b.header.text.length = o.opt_raw_to_report.toNat →
        Line.rawComplete b.header.text ∈ report o b) := by
  have e32 : o.opt_raw_to_report.emod (2 ^ 32) = o.opt_raw_to_report :=
    Int.emod_eq_of_lt h0 (by omega)
  have e64 : o.opt_raw_to_report.emod (2 ^ 64) = o.opt_raw_to_report :=
    Int.emod_eq_of_lt h0 (by omega)
  have hrawsec : (report o b).filter isRawB =
      (if o.opt_raw_to_report.toNat < b.header.text.length then
        [Line.rawTruncated o.opt_raw_to_report
          (b.header.text.take o.opt_raw_to_report.toNat)]
      else [Line.rawComplete b.header.text]) := by
    rw [filter_report_raw o b]
    unfold rawLines
    rw [if_pos hraw, e32, e64]
  refine ⟨?_, ?_, ?_⟩
  · rw [← rawChars_sum_filter, hrawsec]
    by_cases hc : o.opt_raw_to_report.toNat < b.header.text.length
    · rw [if_pos hc]
      simp only [List.map_cons, List.map_nil, List.sum_cons, List.sum_nil,
        Line.rawChars, List.length_take]
      omega
    · rw [if_neg hc]
      simp only [List.map_cons, List.map_nil, List.sum_cons, List.sum_nil,
        Line.rawChars]
      omega
  · rw [show (∃ s, Line.rawTruncated o.opt_raw_to_report s ∈ report o b) ↔
        (∃ s, Line.rawTruncated o.opt_raw_to_report s ∈
          (report o b).filter isRawB) from
      exists_congr fun s => mem_iff_mem_filter (report o b) _ rfl, hrawsec]
    by_cases hc : o.opt_raw_to_report.toNat < b.header.text.length
    · rw [if_pos hc]
      simp [hc]
    · rw [if_neg hc]
      simp [hc]
  · intro heq
    rw [mem_iff_mem_filter (report o b) _ (by rfl : isRawB _ = true), hrawsec,
      if_neg (by omega)]
    simp

/-- Witness for C3 at a concrete input: an eleven-character header text
with a four-character bound, so the truncated form appears. -/
theorem claim_c3_witness :
    (sampleOptsRaw.opt_raw = true ∧ 0 ≤ sampleOptsRaw.opt_raw_to_report ∧
      sampleOptsRaw.opt_raw_to_report < 2 ^ 31) ∧
    (((report sampleOptsRaw sampleBam).map Line.rawChars).sum =
        min sampleBam.header.text.length sampleOptsRaw.opt_raw_to_report.toNat
      ∧ ((∃ s, Line.rawTruncated sampleOptsRaw.opt_raw_to_report s ∈
            report sampleOptsRaw sampleBam) ↔
          sampleOptsRaw.opt_raw_to_report.toNat < sampleBam.header.text.length)
      ∧ (sampleBam.header.text.length = sampleOptsRaw.opt_raw_to_report.toNat →
          Line.rawComplete sampleBam.header.text ∈ report sampleOptsRaw sampleBam)) :=
  ⟨⟨by decide, by decide, by decide⟩,
    claim_c3 sampleOptsRaw sampleBam (by decide) (by decide) (by decide)⟩

/-- Claim C4: when the parsed options have `--quiet` set and `--raw` unset,
a run that reaches an open input prints nothing after the header validity
check (its whole standard output is the validity section), closes the
input, and returns 0. -/
theorem claim_c4 (argv : List Token) (env : String → BamInput) (o : Opts)
    (h0 : ¬ argv = []) (h1 : parseTokens argv defaultOpts = .ok o)
    (h2 : (positionalFiles argv).length ≤ 1)
    (h3 : (env (inputFileOf argv)).openOk = true)
    (hq : o.opt_quiet = true) (hr : o.opt_raw = false) :
    (main_inu argv env).out = validityLines (env (inputFileOf argv)).header
    ∧ (main_inu argv env).exitCode = 0
    ∧ (main_inu argv env).closed = true := by
  rw [main_inu_ok argv env o h0 h1 h2 h3]
  refine ⟨?_, rfl, rfl⟩
  simp [report, hq, rawLines, hr]

/-- Witness for C4 at a concrete input: a lone `--quiet` flag. -/
theorem claim_c4_witness :
    (¬ ([Token.quiet] : List Token) = [] ∧
      parseTokens [Token.quiet] defaultOpts =
        .ok { defaultOpts with opt_quiet := true } ∧
      (positionalFiles [Token.quiet]).length ≤ 1 ∧
      ((fun _ => sampleBam) (inputFileOf [Token.quiet]) : BamInput).openOk = true) ∧
    ((main_inu [Token.quiet] (fun _ => sampleBam)).out =
        validityLines ((fun _ => sampleBam) (inputFileOf [Token.quiet]) : BamInput).header
      ∧ (main_inu [Token.quiet] (fun _ => sampleBam)).exitCode = 0
      ∧ (main_inu [Token.quiet] (fun _ => sampleBam)).closed = true) :=
  ⟨⟨by decide, rfl, by decide, by decide⟩,
    claim_c4 [Token.quiet] (fun _ => sampleBam) { defaultOpts with opt_quiet := true }
      (by decide) rfl (by decide) (by decide) (by decide) (by decide)⟩

/-- Counterexample to C5 as stated: at a concrete input whose record stream
ends in an I/O failure (`endsWithError = true`), the run still prints the
normal tally line (`5 reads examined`) and exits 0 — the failure is not
fatal, it is indistinguishable from end-of-file. -/
theorem claim_c5_counterexample :
    sampleBamErr.endsWithError = true
    ∧ (main_inu [Token.file "in.bam"] (fun _ => sampleBamErr)).exitCode = 0
    ∧ Line.readTally 5 ∈ (main_inu [Token.file "in.bam"] (fun _ => sampleBamErr)).out := by
  decide

/-- Claim C5 as amended: a per-record read failure ends the iteration loop
silently — the report is identical to that of a run whose stream ended
normally at the same point, the normal tally line is printed, and the exit
code is still 0. -/
theorem claim_c5_amended_thm (o : Opts) (b : BamInput) (hq : o.opt_quiet = false) :
    report o { b with endsWithError := true } =
      report o { b with endsWithError := false }
    ∧ (report o { b with endsWithError := true }).filter isTallyB =
        [Line.readTally (readsExamined o b.records)]
    ∧ (∀ s : String,
        (main_inu [Token.file s]
          (fun _ => { b with endsWithError := true, openOk := true })).exitCode = 0) := by
  refine ⟨?_, ?_, ?_⟩
  · cases b
    rfl
  · exact filter_report_tally o { b with endsWithError := true } hq
  · intro s
    rw [main_inu_ok [Token.file s]
      (fun _ => { b with endsWithError := true, openOk := true }) defaultOpts
      (by simp) rfl (by simp [positionalFiles]) rfl]

/-- Witness for C5's amended theorem at the concrete erroring input. -/
theorem claim_c5_amended_witness :
    (defaultOpts.opt_quiet = false) ∧
    (report defaultOpts { sampleBam with endsWithError := true } =
        report defaultOpts { sampleBam with endsWithError := false }
      ∧ (report defaultOpts { sampleBam with endsWithError := true }).filter isTallyB =
          [Line.readTally (readsExamined defaultOpts sampleBam.records)]
      ∧ (∀ s : String,
          (main_inu [Token.file s]
            (fun _ => { sampleBam with endsWithError := true, openOk := true })).exitCode
            = 0)) :=
  ⟨by decide, claim_c5_amended_thm defaultOpts sampleBam (by decide)⟩

/-- Counterexample to C6 as stated: with zero positional paths and no other
arguments at all, the run does not proceed on standard input — the `argc < 2`
guard prints usage and exits 1 without opening anything. -/
theorem claim_c6_counterexample :
    positionalFiles ([] : List Token) = []
    ∧ (main_inu [] (fun _ => sampleBam)).exitCode = 1
    ∧ (main_inu [] (fun _ => sampleBam)).usagePrinted = true
    ∧ (main_inu [] (fun _ => sampleBam)).opened = none := by
  decide

/-- Claim C6 as amended: at most one positional path is accepted.  With an
entirely empty argument vector the program prints usage and exits 1; with
zero paths but at least one (valid) option argument the input defaults to
`/dev/stdin`; with exactly one path that file is opened; with more than one
path the program prints usage and exits non-zero. -/
theorem claim_c6_amended_thm (argv : List Token) (env : String → BamInput) :
    (argv = [] →
      (main_inu argv env).exitCode = 1 ∧ (main_inu argv env).usagePrinted = true)
    ∧ (∀ o : Opts, parseTokens argv defaultOpts = .ok o → positionalFiles argv = [] →
        ¬ argv = [] → (main_inu argv env).opened = some "/dev/stdin")
    ∧ (∀ (o : Opts) (f : String), parseTokens argv defaultOpts = .ok o →
        positionalFiles argv = [f] → (main_inu argv env).opened = some f)
    ∧ ((positionalFiles argv).length > 1 →
        (main_inu argv env).exitCode = 1 ∧ (main_inu argv env).usagePrinted = true) := by
  refine ⟨?_, ?_, ?_, ?_⟩
  · intro h
    subst h
    exact ⟨rfl, rfl⟩
  · intro o h1 h2 h0
    rw [main_inu_opened argv env o h0 h1 (by rw [h2]; decide)]
    unfold inputFileOf
    rw [h2]
  · intro o f h1 h2
    have h0 : ¬ argv = [] := by
      intro he
      rw [he] at h2
      simp [positionalFiles] at h2
    rw [main_inu_opened argv env o h0 h1 (by rw [h2]; simp)]
    unfold inputFileOf
    rw [h2]
  · intro hfiles
    by_cases h0 : argv = []
    · rw [h0] at hfiles
      exact absurd hfiles (by decide)
    · unfold main_inu
      rw [if_neg h0]
      cases hp : parseTokens argv defaultOpts with
      | error u => exact ⟨rfl, rfl⟩
      | ok o =>
        simp only []
        rw [if_pos hfiles]
        exact ⟨rfl, rfl⟩

/-- Witness for C6's amended theorem: one application per branch — empty
argument vector, a lone option, a single path, and two paths. -/
theorem claim_c6_amended_witness :
    ((main_inu [] (fun _ => sampleBam)).exitCode = 1 ∧
      (main_inu [] (fun _ => sampleBam)).usagePrinted = true)
    ∧ (main_inu [Token.quit] (fun _ => sampleBam)).opened = some "/dev/stdin"
    ∧ (main_inu [Token.file "a.bam"] (fun _ => sampleBam)).opened = some "a.bam"
    ∧ ((main_inu [Token.file "a.bam", Token.file "b.bam"]
          (fun _ => sampleBam)).exitCode = 1 ∧
        (main_inu [Token.file "a.bam", Token.file "b.bam"]
          (fun _ => sampleBam)).usagePrinted = true) :=
  ⟨(claim_c6_amended_thm [] (fun _ => sampleBam)).1 rfl,
    (claim_c6_amended_thm [Token.quit] (fun _ => sampleBam)).2.1
      { defaultOpts with opt_quit := true } rfl rfl (by decide),
    (claim_c6_amended_thm [Token.file "a.bam"] (fun _ => sampleBam)).2.2.1
      defaultOpts "a.bam" rfl rfl,
    (claim_c6_amended_thm [Token.file "a.bam", Token.file "b.bam"]
      (fun _ => sampleBam)).2.2.2 (by decide)⟩

/-- Claim C7: the exit code is 1 whenever an unknown or malformed option
appears, whenever more than one positional path is given (regardless of the
other flags), and whenever the input cannot be opened; it is 0 on a
successful run (arguments parse, at most one path, input opens). -/
theorem claim_c7 (argv : List Token) (env : String → BamInput) :
    (∀ s : String, Token.invalid s ∈ argv → (main_inu argv env).exitCode = 1)
    ∧ ((positionalFiles argv).length > 1 → (main_inu argv env).exitCode = 1)
    ∧ (∀ o : Opts, ¬ argv = [] → parseTokens argv defaultOpts = .ok o →
        (positionalFiles argv).length ≤ 1 →
        (env (inputFileOf argv)).openOk = false →
        (main_inu argv env).exitCode = 1)
    ∧ (∀ o : Opts, ¬ argv = [] → parseTokens argv defaultOpts = .ok o →
        (positionalFiles argv).length ≤ 1 →
        (env (inputFileOf argv)).openOk = true →
        (main_inu argv env).exitCode = 0) := by
  refine ⟨?_, ?_, ?_, ?_⟩
  · intro s h
    have h0 : ¬ argv = [] := by
      intro he
      rw [he] at h
      simp at h
    unfold main_inu
    rw [if_neg h0, parseTokens_error_of_invalid argv defaultOpts s h]
  · intro hfiles
    by_cases h0 : argv = []
    · rw [h0] at hfiles
      exact absurd hfiles (by decide)
    · unfold main_inu
      rw [if_neg h0]
      cases hp : parseTokens argv defaultOpts with
      | error u => rfl
      | ok o =>
        simp only []
        rw [if_pos hfiles]
  · intro o h0 h1 h2 h3
    rw [main_inu_openFail argv env o h0 h1 h2 h3]
  · intro o h0 h1 h2 h3
    rw [main_inu_ok argv env o h0 h1 h2 h3]

/-- Witness for C7: one application per branch — an invalid option, two
paths, an open failure, and a successful run. -/
theorem claim_c7_witness :
    (main_inu [Token.invalid "--bogus"] (fun _ => sampleBam)).exitCode = 1
    ∧ (main_inu [Token.raw, Token.file "a.bam", Token.file "b.bam"]
        (fun _ => sampleBam)).exitCode = 1
    ∧ (main_inu [Token.file "a.bam"]
        (fun _ => { sampleBam with openOk := false })).exitCode = 1
    ∧ (main_inu [Token.file "a.bam"] (fun _ => sampleBam)).exitCode = 0 :=
  ⟨(claim_c7 [Token.invalid "--bogus"] (fun _ => sampleBam)).1 "--bogus" (by decide),
    (claim_c7 [Token.raw, Token.file "a.bam", Token.file "b.bam"]
      (fun _ => sampleBam)).2.1 (by decide),
    (claim_c7 [Token.file "a.bam"] (fun _ => { sampleBam with openOk := false })).2.2.1
      defaultOpts (by decide) rfl (by decide) rfl,
    (claim_c7 [Token.file "a.bam"] (fun _ => sampleBam)).2.2.2
      defaultOpts (by decide) rfl (by decide) rfl⟩

/-- Claim C8: when the header validity check fails, the report is exactly
the validator's error text followed by the same full report an identical
input with a valid header would get, and a run reaching an open input still
exits 0. -/
theorem claim_c8 (o : Opts) (b : BamInput) (hinv : b.header.isValid = false) :
    report o b =
      Line.headerErrors b.header.errorString ::
        report o { b with header := { b.header with isValid := true } }
    ∧ (∀ s : String,
        (main_inu [Token.file s] (fun _ => { b with openOk := true })).exitCode = 0) := by
  constructor
  · cases b with
    | mk openOk header refs records endsWithError =>
      cases header with
      | mk iv es tx v so go hs hr pg cm =>
        simp only at hinv
        subst hinv
        rfl
  · intro s
    rw [main_inu_ok [Token.file s] (fun _ => { b with openOk := true }) defaultOpts
      (by simp) rfl (by simp [positionalFiles]) rfl]

/-- Witness for C8 at a concrete input with an invalid header. -/
theorem claim_c8_witness :
    ({ sampleBam with
        header := { sampleHeader with isValid := false, errorString := "bad" }
      } : BamInput).header.isValid = false ∧
    (report defaultOpts
        { sampleBam with
          header := { sampleHeader with isValid := false, errorString := "bad" } } =
      Line.headerErrors
          ({ sampleBam with
            header := { sampleHeader with isValid := false, errorString := "bad" }
          } : BamInput).header.errorString ::
        report defaultOpts
          { { sampleBam with
              header := { sampleHeader with isValid := false, errorString := "bad" } } with
            header := { ({ sampleBam with
              header := { sampleHeader with isValid := false, errorString := "bad" }
            } : BamInput).header with isValid := true } }
    ∧ (∀ s : String,
        (main_inu [Token.file s]
          (fun _ => { { sampleBam with
            header := { sampleHeader with isValid := false, errorString := "bad" } } with
            openOk := true })).exitCode = 0)) :=
  ⟨by decide,
    claim_c8 defaultOpts
      { sampleBam with
        header := { sampleHeader with isValid := false, errorString := "bad" } }
      (by decide)⟩

/-- Claim C9: with `--quiet` unset, a header presenting none of the
version, sort-order and group-order fields yields the `no header line
found` notice and no headerline row; if at least one is present, exactly
one headerline row is printed, carrying exactly the fields that are
present. -/
theorem claim_c9 (o : Opts) (b : BamInput) (hq : o.opt_quiet = false) :
    (b.header.Version = none ∧ b.header.SortOrder = none ∧
        b.header.GroupOrder = none →
      Line.noHeaderline ∈ report o b ∧ (report o b).filter isHeaderRowB = [])
    ∧ ((b.header.Version.isSome || b.header.SortOrder.isSome ||
        b.header.GroupOrder.isSome) = true →
      (report o b).filter isHeaderRowB =
        [Line.headerline b.header.Version b.header.SortOrder b.header.GroupOrder]) := by
  constructor
  · intro ⟨hv, hs, hg⟩
    have hcond : (b.header.Version.isSome || b.header.SortOrder.isSome ||
        b.header.GroupOrder.isSome) = false := by
      rw [hv, hs, hg]
      rfl
    constructor
    · rw [mem_iff_mem_filter (report o b) _ (by rfl : isNoHeaderB _ = true),
        filter_report_noHeader o b hq, if_neg (by simp [hcond])]
      simp
    · rw [filter_report_headerRow o b hq, if_neg (by simp [hcond])]
  · intro hcond
    rw [filter_report_headerRow o b hq, if_pos hcond]

/-- Witness for C9 at a concrete input whose header has a version field. -/
theorem claim_c9_witness :
    (defaultOpts.opt_quiet = false ∧
      (sampleBam.header.Version.isSome || sampleBam.header.SortOrder.isSome ||
        sampleBam.header.GroupOrder.isSome) = true) ∧
    (report defaultOpts sampleBam).filter isHeaderRowB =
      [Line.headerline sampleBam.header.Version sampleBam.header.SortOrder
        sampleBam.header.GroupOrder] :=
  ⟨⟨by decide, by decide⟩,
    (claim_c9 defaultOpts sampleBam (by decide)).2 (by decide)⟩

/-- Claim C10: with `--quiet` unset, every free-text comment of the header
appears in the report as an `@CO` line tagged `[program]`, not
`[comment]`; the only line form carrying the `[comment]` tag is the
`no comment lines found` notice, which appears iff there are no
comments. -/
theorem claim_c10 (o : Opts) (b : BamInput) (hq : o.opt_quiet = false) :
    (∀ c ∈ b.header.Comments, Line.commentCO c ∈ report o b)
    ∧ (∀ s : String, (Line.commentCO s).tag = some "[program]")
    ∧ (∀ l ∈ report o b, l.tag = some "[comment]" → l = Line.noComments)
    ∧ (Line.noComments ∈ report o b ↔ b.header.Comments = []) := by
  refine ⟨?_, fun s => rfl, ?_, ?_⟩
  · intro c hc
    have hne : b.header.Comments.isEmpty = false := by
      cases hcm : b.header.Comments with
      | nil => rw [hcm] at hc; simp at hc
      | cons x xs => rfl
    rw [mem_iff_mem_filter (report o b) _ (by rfl : isCommentCOB _ = true),
      filter_report_commentCO o b hq, if_neg (by simp [hne])]
    exact List.mem_map.mpr ⟨c, hc, rfl⟩
  · intro l _ ht
    cases l <;> first | rfl | exact absurd ht (by simp [Line.tag])
  · rw [mem_iff_mem_filter (report o b) _ (by rfl : isNoCommentsB _ = true),
      filter_report_noComments o b hq]
    by_cases hcm : b.header.Comments.isEmpty
    · rw [if_pos hcm]
      simp [List.isEmpty_iff.mp hcm]
    · rw [if_neg hcm]
      constructor
      · intro h
        simp at h
      · intro h
        rw [h] at hcm
        exact absurd rfl hcm

/-- Witness for C10 at a concrete input with one comment line. -/
theorem claim_c10_witness :
    (defaultOpts.opt_quiet = false) ∧
    ((∀ c ∈ sampleBam.header.Comments,
        Line.commentCO c ∈ report defaultOpts sampleBam)
      ∧ (∀ s : String, (Line.commentCO s).tag = some "[program]")
      ∧ (∀ l ∈ report defaultOpts sampleBam,
          l.tag = some "[comment]" → l = Line.noComments)
      ∧ (Line.noComments ∈ report defaultOpts sampleBam ↔
          sampleBam.header.Comments = [])) :=
  ⟨by decide, claim_c10 defaultOpts sampleBam (by decide)⟩

end Yoruba
